import Mathlib

/-!
Shallow embedding of the `mx` bytecode execution engine
(`src/mx/src/{number,primitive,value,table,bytecode}.rs`).

Machine floats (`f64`) are modelled by their 64-bit IEEE 754 bit pattern,
carried as a `Nat`.  The primitive float operations the engine relies on
(`is_nan`, `==`, `partial_cmp`, `to_bits`) are modelled on bit patterns:
IEEE equality identifies `+0.0` and `-0.0` and makes NaN unequal to
everything, and IEEE ordering of non-NaN values agrees with the standard
monotone sign-magnitude reordering of the bit pattern (`nkeyB` below).

`HashMap` is modelled by an association list; insertion replaces the first
entry with an equal key (keeping the stored key, as `HashMap::insert`
does) and appends otherwise.  Iteration order of a `HashMap` is
unspecified in Rust; every property proved here is insensitive to it.

The Rust evaluator takes `&mut State` and returns `Result`; on `Err` the
mutations already performed remain.  We model this with the `Res` type,
which carries the (possibly mutated) state on both the ok and the error
path.  The `todo!()` arms of `Instruction::eval` (unary/binary operators,
jumps, `PushFunction`, `Call`) are modelled as `none` (a panic).
-/

namespace Mx

/-! ## Model of the `f64` primitives used by `Number` -/

/-- Exponent field (bits 52..62) of an `f64` bit pattern. -/
def expField (b : Nat) : Nat := b / 2 ^ 52 % 2 ^ 11

/-- Mantissa field (bits 0..51) of an `f64` bit pattern. -/
def manField (b : Nat) : Nat := b % 2 ^ 52

/-- Model of `f64::is_nan`: exponent all ones and nonzero mantissa. -/
def isNanB (b : Nat) : Bool := expField b == 2 ^ 11 - 1 && manField b != 0

/-- A bit pattern denotes a zero (`+0.0` or `-0.0`) when all bits below the sign are clear. -/
def isZeroB (b : Nat) : Bool := b % 2 ^ 63 == 0

/-- The standard monotone total-order key of an `f64` bit pattern: reorders
sign-magnitude patterns so that `Nat` comparison of keys agrees with IEEE
comparison on non-NaN values (with `-0.0` just below `+0.0`). -/
def keyB (b : Nat) : Nat := if b < 2 ^ 63 then b + 2 ^ 63 else 2 ^ 64 - 1 - b

/-- Order key with the two zeros identified, matching IEEE `-0.0 == +0.0`. -/
def nkeyB (b : Nat) : Nat := if isZeroB b then 2 ^ 63 else keyB b

/-- Model of IEEE `f64` equality (`==` on floats): NaN is unequal to
everything, the two zeros are equal, otherwise bit patterns must agree. -/
def f64Eq (a b : Nat) : Bool := !isNanB a && !isNanB b && nkeyB a == nkeyB b

/-- Model of IEEE `f64::partial_cmp`: `none` when either side is NaN,
otherwise the comparison of the monotone order keys. -/
def f64Cmp (a b : Nat) : Option Ordering :=
  if isNanB a || isNanB b then none else some (compare (nkeyB a) (nkeyB b))

/-- Bit pattern of `f64::MIN` (most negative finite double). -/
def f64MinBits : Nat := 0xFFEFFFFFFFFFFFFF

/-- Fuelled binary logarithm (structural so the kernel can evaluate it). -/
def log2fuel : Nat → Nat → Nat
  | 0, _ => 0
  | fuel + 1, n => if n < 2 then 0 else log2fuel fuel (n / 2) + 1

/-- Binary logarithm of a positive natural. -/
def natLog2 (n : Nat) : Nat := log2fuel n n

/-- Bit pattern of the `f64` nearest a natural number (exact for `n < 2^53`).
This models the `usize as f64` / integer-to-float conversions of the code. -/
def f64ofNat (n : Nat) : Nat :=
  if n = 0 then 0
  else (1023 + natLog2 n) * 2 ^ 52 + (n * 2 ^ 52 / 2 ^ natLog2 n - 2 ^ 52)

/-! ## `Number` (`number.rs`): the `f64` wrapper with total order and hash -/

/-- Model of `PartialEq for Number`: NaN equals NaN, otherwise IEEE `==`. -/
def numberEq (a b : Nat) : Bool := (isNanB a && isNanB b) || f64Eq a b

/-- Model of `Ord::cmp for Number`: NaN equals NaN and is below every
non-NaN value; two non-NaN values compare by IEEE order (`unwrap` of
`partial_cmp`, modelled with an unreachable default). -/
def numberCmp (a b : Nat) : Ordering :=
  match isNanB a, isNanB b with
  | true, true => .eq
  | true, false => .lt
  | false, true => .gt
  | false, false => (f64Cmp a b).getD .eq

/-- Model of `Hash for Number`: the 64-bit word fed to the hasher
(`f64::MIN.to_bits()` for NaN, `self.0.to_bits()` otherwise).  Two
`Number`s hash identically exactly when they feed the same word. -/
def numberHashFeed (a : Nat) : Nat := if isNanB a then f64MinBits else a

/-! ## `Primitive` and `Value` (`primitive.rs`, `value.rs`, `table.rs`) -/

/-- Model of `Primitive`: Nil, Bool, Number (an `f64` bit pattern), String. -/
inductive Primitive where
  | nil : Primitive
  | bool : Bool → Primitive
  | num : Nat → Primitive
  | str : String → Primitive
deriving Repr

/-- Model of the derived `PartialEq for Primitive` (structural; numbers
compare with `Number`'s equality). -/
def primEq : Primitive → Primitive → Bool
  | .nil, .nil => true
  | .bool a, .bool b => a == b
  | .num a, .num b => numberEq a b
  | .str a, .str b => a == b
  | _, _ => false

/-- Model of `Value`: a primitive, a table (`HashMap<Primitive, Value>`
modelled as an association list), or a function pointer. -/
inductive Value where
  | prim : Primitive → Value
  | table : List (Primitive × Value) → Value
  | fptr : Nat → Value
deriving Repr

/-- A table is an association list from primitives to values. -/
abbrev Table := List (Primitive × Value)

/-- Model of `Value::nil()`. -/
def Value.nil : Value := .prim .nil

/-- Model of `Value::is_nil`. -/
def Value.is_nil : Value → Bool
  | .prim .nil => true
  | _ => false

/-- Model of `value.get_value::<String>()`. -/
def Value.get_string : Value → Option String
  | .prim (.str s) => some s
  | _ => none

/-- Model of `value.get_value::<f64>()` (the bit pattern of the number). -/
def Value.get_f64 : Value → Option Nat
  | .prim (.num b) => some b
  | _ => none

/-- Model of `Value::into_primitive` (`get_primitive`). -/
def Value.into_primitive : Value → Option Primitive
  | .prim p => some p
  | _ => none

/-- Model of `Value::into_table` (`get_table`). -/
def Value.into_table : Value → Option Table
  | .table t => some t
  | _ => none

/-- Model of `Table::get` (`HashMap::get`): the binding with an equal key,
if any (association lists representing a `HashMap` hold at most one). -/
def Table.get : Table → Primitive → Option Value
  | [], _ => none
  | (k0, v0) :: rest, k => if primEq k0 k then some v0 else Table.get rest k

/-- Model of `HashMap::insert` as used by `Table::set`: replace the value
of the first entry with an equal key (keeping the stored key), append a
new entry otherwise. -/
def Table.set : Table → Primitive → Value → Table
  | [], k, v => [(k, v)]
  | (k0, v0) :: rest, k, v =>
    if primEq k0 k then (k0, v) :: rest
    else (k0, v0) :: Table.set rest k v

/-- Model of `Table::get_mut` (entry-or-insert-Nil): the value now bound
to the key together with the table after the auto-vivification. -/
def Table.get_mut (t : Table) (k : Primitive) : Value × Table :=
  match Table.get t k with
  | some v => (v, t)
  | none => (Value.nil, Table.set t k Value.nil)

/-- Model of `<Table as IntoIterator>::into_iter`, which skips every
binding whose value is Nil; merging folds `set` over it. -/
def mergeTables (a b : Table) : Table :=
  (b.filter (fun kv => !kv.2.is_nil)).foldl (fun t kv => Table.set t kv.1 kv.2) a

/-! ## Execution state (`bytecode.rs`) -/

/-- Model of the runtime error enumeration of `bytecode.rs`. -/
inductive RuntimeError where
  | EmptyStack
  | NoStackFrames
  | NotATable
  | InvalidVariable
  | InvalidTableKey
  | InvalidProgramCounter
  | InvalidReturnAddress
  | InvalidCallable
  | FunctionArgumentNotProvided
deriving Repr, DecidableEq

/-- Model of `Vars = HashMap<String, Value>` as an association list. -/
abbrev Vars := List (String × Value)

/-- Model of `HashMap::get` on a `Vars` map. -/
def varsGet : Vars → String → Option Value
  | [], _ => none
  | (k, v) :: rest, n => if k = n then some v else varsGet rest n

/-- Model of `HashMap::insert` on a `Vars` map. -/
def varsInsert : Vars → String → Value → Vars
  | [], n, v => [(n, v)]
  | (k, w) :: rest, n, v =>
    if k = n then (k, v) :: rest else (k, w) :: varsInsert rest n v

/-- Model of a `StackFrame`.  The head of `stack` is the top of the
operand stack (Rust pushes and pops at the end of the `Vec`). -/
structure StackFrame where
  locals : Vars
  return_address : Option Nat
  stack : List Value
deriving Repr

/-- Model of `State`.  The head of `stack_frames` is the innermost
(current) frame (Rust keeps it at the end of the `Vec`). -/
structure State where
  pc : Nat
  globals : Vars
  stack_frames : List StackFrame
deriving Repr

/-- Outcome of a fallible state-mutating step: Rust's `&mut State` plus
`Result` semantics, so the state is carried on the error path as well. -/
inductive Res (α : Type) where
  | ok : α → State → Res α
  | err : RuntimeError → State → Res α
deriving Repr

/-- Model of `State::incr_pc`. -/
def State.incr_pc (s : State) : State := { s with pc := s.pc + 1 }

/-- Model of `State::pop_stack` (pop from the current frame's operand stack). -/
def State.pop_stack (s : State) : Res Value :=
  match s.stack_frames with
  | [] => .err .NoStackFrames s
  | f :: rest =>
    match f.stack with
    | [] => .err .EmptyStack s
    | v :: vs => .ok v { s with stack_frames := { f with stack := vs } :: rest }

/-- Model of `State::push_stack` (push onto the current frame's operand stack). -/
def State.push_stack (s : State) (v : Value) : Res Unit :=
  match s.stack_frames with
  | [] => .err .NoStackFrames s
  | f :: rest => .ok () { s with stack_frames := { f with stack := v :: f.stack } :: rest }

/-- Model of `State::peek_stack`. -/
def State.peek_stack (s : State) : Res Value :=
  match s.stack_frames with
  | [] => .err .NoStackFrames s
  | f :: _ =>
    match f.stack with
    | [] => .err .EmptyStack s
    | v :: _ => .ok v s

/-- The `iter().rev().find_map(|frame| frame.locals.get(name))` part of
`State::get_var`: the frame list is stored innermost-first here, so this
is a plain first-match search over every live frame's locals. -/
def framesLookup : List StackFrame → String → Option Value
  | [], _ => none
  | f :: rest, name =>
    match varsGet f.locals name with
    | some v => some v
    | none => framesLookup rest name

/-- Model of `State::get_var`: search every frame's locals from the
innermost frame outwards, then the globals. -/
def State.get_var (s : State) (name : String) : Except RuntimeError Value :=
  match framesLookup s.stack_frames name with
  | some v => .ok v
  | none =>
    match varsGet s.globals name with
    | some v => .ok v
    | none => .error .InvalidVariable

/-- Model of `State::set_var`: insert into the current frame's locals. -/
def State.set_var (s : State) (name : String) (v : Value) : Res Unit :=
  match s.stack_frames with
  | [] => .err .NoStackFrames s
  | f :: rest =>
    .ok () { s with stack_frames := { f with locals := varsInsert f.locals name v } :: rest }

/-! ## The instruction set (`bytecode.rs`) -/

/-- Model of the `UnaryOp` enumeration of `ops.rs`. -/
inductive UnaryOp where
  | Plus | Minus | Not
deriving Repr

/-- Model of the `BinaryOp` enumeration of `ops.rs`. -/
inductive BinaryOp where
  | Add | Sub | Mul | Div | Mod | Pow
  | Eq | Ne | Lt | Lte | Gt | Gte
  | And | Or | NilCoalesce
deriving Repr

/-- Model of the `Instruction` enumeration. -/
inductive Instruction where
  | nop
  | copy
  | swap
  | pop
  | unaryOp : UnaryOp → Instruction
  | binaryOp : BinaryOp → Instruction
  | storeName
  | storePrimitive : Primitive → Instruction
  | pushName
  | pushPrimitive : Primitive → Instruction
  | tableGet
  | tableListBuild : Nat → Instruction
  | tableDictBuild : Nat → Instruction
  | tableMerge
  | popJumpIfTrue : Nat → Instruction
  | popJumpIfFalse : Nat → Instruction
  | jump : Nat → Instruction
  | pushFunction : Nat → Instruction
  | storeFunctionArgs : Bool → Nat → Instruction
  | call
  | ret
deriving Repr

/-- The `TableListBuild` loop: pop `k` values, binding them (from the top
down) to the keys `k-1, k-2, …, 0` — the source computes `key = n - i - 1`
at iteration `i`, which is the same sequence. -/
def listBuildLoop : Nat → Table → State → Res Table
  | 0, t, s => .ok t s
  | k + 1, t, s =>
    match s.pop_stack with
    | .err e s1 => .err e s1
    | .ok v s1 => listBuildLoop k (Table.set t (.num (f64ofNat k)) v) s1

/-- The pair-popping phase of `TableDictBuild`: pop `k` (value, key) pairs
(value on top), requiring each key to be a primitive.  The returned list
is in pop order, as the source's `key_value_pairs` vector is. -/
def dictPairsLoop : Nat → State → Res (List (Primitive × Value))
  | 0, s => .ok [] s
  | k + 1, s =>
    match s.pop_stack with
    | .err e s1 => .err e s1
    | .ok value s1 =>
      match s1.pop_stack with
      | .err e s2 => .err e s2
      | .ok keyv s2 =>
        match keyv.into_primitive with
        | none => .err .InvalidTableKey s2
        | some key =>
          match dictPairsLoop k s2 with
          | .err e s3 => .err e s3
          | .ok rest s3 => .ok ((key, value) :: rest) s3

/-- The pair-popping phase of `StoreFunctionArgs`: pop `k` pairs, each a
positional value (on top) over a named value.  Pop order is preserved. -/
def sfaPopPairs : Nat → State → Res (List (Value × Value))
  | 0, s => .ok [] s
  | k + 1, s =>
    match s.pop_stack with
    | .err e s1 => .err e s1
    | .ok positional s1 =>
      match s1.pop_stack with
      | .err e s2 => .err e s2
      | .ok named s2 =>
        match sfaPopPairs k s2 with
        | .err e s3 => .err e s3
        | .ok rest s3 => .ok ((positional, named) :: rest) s3

/-- The binding phase of `StoreFunctionArgs`: for each (positional, named)
pair, read the named slot of the arguments table via `get_mut`; if it is
Nil fall back to the positional slot (the positional value must then be a
number); a Nil there too is `FunctionArgumentNotProvided`.  The resolved
value is bound into the current frame's locals and the slot it was read
from is overwritten with Nil. -/
def sfaBind : List (Value × Value) → Table → State → Res Table
  | [], t, s => .ok t s
  | (positional, named) :: rest, t, s =>
    match named.get_string with
    | none => .err .InvalidVariable s
    | some nm =>
      match t.get_mut (.str nm) with
      | (v1, t1) =>
        if v1.is_nil then
          match positional.get_f64 with
          | none => .err .InvalidVariable s
          | some pb =>
            match t1.get_mut (.num pb) with
            | (v2, t2) =>
              if v2.is_nil then .err .FunctionArgumentNotProvided s
              else
                match s.set_var nm v2 with
                | .err e s1 => .err e s1
                | .ok _ s1 => sfaBind rest (Table.set t2 (.num pb) Value.nil) s1
        else
          match s.set_var nm v1 with
          | .err e s1 => .err e s1
          | .ok _ s1 => sfaBind rest (Table.set t1 (.str nm) Value.nil) s1

/-- The optional `self` phase of `StoreFunctionArgs`. -/
def sfaSelf (t : Table) (s : State) : Res Table :=
  match t.get_mut (.str "self") with
  | (v, t1) =>
    if v.is_nil then .err .FunctionArgumentNotProvided s
    else
      match s.set_var "self" v with
      | .err e s1 => .err e s1
      | .ok _ s1 => .ok (Table.set t1 (.str "self") Value.nil) s1

/-- Model of `Instruction::eval`.  `none` models the `todo!()` catch-all
arm (a panic); otherwise the result is the `Result` together with the
state as mutated up to the point of return. -/
def Instruction.eval : Instruction → State → Option (Res (Option Value))
  | .nop, s0 => some (.ok none s0.incr_pc)
  | .copy, s0 =>
    let s := s0.incr_pc
    some (match s.peek_stack with
    | .err e s1 => .err e s1
    | .ok v s1 =>
      match s1.push_stack v with
      | .err e s2 => .err e s2
      | .ok _ s2 => .ok none s2)
  | .swap, s0 =>
    let s := s0.incr_pc
    some (match s.pop_stack with
    | .err e s1 => .err e s1
    | .ok tos s1 =>
      match s1.pop_stack with
      | .err e s2 => .err e s2
      | .ok tos1 s2 =>
        match s2.push_stack tos with
        | .err e s3 => .err e s3
        | .ok _ s3 =>
          match s3.push_stack tos1 with
          | .err e s4 => .err e s4
          | .ok _ s4 => .ok none s4)
  | .pop, s0 =>
    let s := s0.incr_pc
    some (match s.pop_stack with
    | .err e s1 => .err e s1
    | .ok _ s1 => .ok none s1)
  | .storeName, s0 =>
    let s := s0.incr_pc
    some (match s.pop_stack with
    | .err e s1 => .err e s1
    | .ok value s1 =>
      match s1.pop_stack with
      | .err e s2 => .err e s2
      | .ok name s2 =>
        match name.get_string with
        | none => .err .InvalidVariable s2
        | some var =>
          match s2.set_var var value with
          | .err e s3 => .err e s3
          | .ok _ s3 => .ok none s3)
  | .storePrimitive p, s0 =>
    let s := s0.incr_pc
    some (match s.pop_stack with
    | .err e s1 => .err e s1
    | .ok name s1 =>
      match name.get_string with
      | none => .err .InvalidVariable s1
      | some var =>
        match s1.set_var var (.prim p) with
        | .err e s2 => .err e s2
        | .ok _ s2 => .ok none s2)
  | .pushName, s0 =>
    let s := s0.incr_pc
    some (match s.pop_stack with
    | .err e s1 => .err e s1
    | .ok name s1 =>
      match name.get_string with
      | none => .err .InvalidVariable s1
      | some var =>
        match s1.get_var var with
        | .error e => .err e s1
        | .ok value =>
          match s1.push_stack value with
          | .err e s2 => .err e s2
          | .ok _ s2 => .ok none s2)
  | .pushPrimitive p, s0 =>
    let s := s0.incr_pc
    some (match s.push_stack (.prim p) with
    | .err e s1 => .err e s1
    | .ok _ s1 => .ok none s1)
  | .tableGet, s0 =>
    let s := s0.incr_pc
    some (match s.pop_stack with
    | .err e s1 => .err e s1
    | .ok keyv s1 =>
      match keyv.into_primitive with
      | none => .err .InvalidTableKey s1
      | some key =>
        match s1.peek_stack with
        | .err e s2 => .err e s2
        | .ok tos s2 =>
          match tos with
          | .table t =>
            match s2.push_stack ((Table.get t key).getD Value.nil) with
            | .err e s3 => .err e s3
            | .ok _ s3 => .ok none s3
          | _ => .err .InvalidVariable s2)
  | .tableListBuild n, s0 =>
    let s := s0.incr_pc
    some (match listBuildLoop n [] s with
    | .err e s1 => .err e s1
    | .ok t s1 =>
      match s1.push_stack (.table t) with
      | .err e s2 => .err e s2
      | .ok _ s2 => .ok none s2)
  | .tableDictBuild n, s0 =>
    let s := s0.incr_pc
    some (match dictPairsLoop n s with
    | .err e s1 => .err e s1
    | .ok pairs s1 =>
      let t := pairs.reverse.foldl (fun t kv => Table.set t kv.1 kv.2) ([] : Table)
      match s1.push_stack (.table t) with
      | .err e s2 => .err e s2
      | .ok _ s2 => .ok none s2)
  | .tableMerge, s0 =>
    let s := s0.incr_pc
    some (match s.pop_stack with
    | .err e s1 => .err e s1
    | .ok tosv s1 =>
      match tosv.into_table with
      | none => .err .NotATable s1
      | some tos =>
        match s1.pop_stack with
        | .err e s2 => .err e s2
        | .ok tos1v s2 =>
          match tos1v.into_table with
          | none => .err .NotATable s2
          | some tos1 =>
            match s2.push_stack (.table (mergeTables tos1 tos)) with
            | .err e s3 => .err e s3
            | .ok _ s3 => .ok none s3)
  | .storeFunctionArgs get_self n, s0 =>
    let s := s0.incr_pc
    some (match sfaPopPairs n s with
    | .err e s1 => .err e s1
    | .ok pairs s1 =>
      match s1.pop_stack with
      | .err e s2 => .err e s2
      | .ok tosv s2 =>
        match tosv.into_table with
        | none => .err .InvalidVariable s2
        | some tos =>
          match sfaBind pairs tos s2 with
          | .err e s3 => .err e s3
          | .ok t s3 =>
            if get_self then
              match sfaSelf t s3 with
              | .err e s4 => .err e s4
              | .ok _ s4 => .ok none s4
            else .ok none s3)
  | .ret, s0 =>
    some (match s0.pop_stack with
    | .err e s1 => .err e s1
    | .ok value s1 =>
      match s1.stack_frames with
      | [] => .err .NoStackFrames s1
      | frame :: rest =>
        let s2 := { s1 with stack_frames := rest }
        match frame.return_address with
        | some return_address =>
          let s3 := { s2 with pc := return_address }
          match s3.push_stack value with
          | .err e s4 => .err e s4
          | .ok _ s4 => .ok none s4
        | none => .ok (some value) s2)
  | .unaryOp _, _ => none
  | .binaryOp _, _ => none
  | .popJumpIfTrue _, _ => none
  | .popJumpIfFalse _, _ => none
  | .jump _, _ => none
  | .pushFunction _, _ => none
  | .call, _ => none

/-! ## The program driver (`Program::run_with_state`, `run_with`, `run`) -/

/-- Model of `Program`. -/
structure Program where
  instructions : List Instruction
deriving Repr

/-- Model of `Program::run_with_state`, with explicit fuel for the
unbounded `loop`; `none` means fuel ran out or an evaluation panicked.
When the program counter no longer indexes an instruction, the run ends:
with Nil if the counter sits exactly at the end, with
`InvalidProgramCounter` otherwise. -/
def Program.run_with_state : Nat → Program → State → Option (Except RuntimeError Value)
  | 0, _, _ => none
  | fuel + 1, p, s =>
    match p.instructions.get? s.pc with
    | some i =>
      match i.eval s with
      | none => none
      | some (.err e _) => some (.error e)
      | some (.ok (some v) _) => some (.ok v)
      | some (.ok none s1) => p.run_with_state fuel s1
    | none =>
      if s.pc = p.instructions.length then some (.ok Value.nil)
      else some (.error .InvalidProgramCounter)

/-- Model of `Program::run_with`: run from program counter 0 with one
frame carrying empty locals, no return address and an empty stack. -/
def Program.run_with (fuel : Nat) (p : Program) (globals : Vars) :
    Option (Except RuntimeError Value) :=
  p.run_with_state fuel { pc := 0, globals := globals, stack_frames := [⟨[], none, []⟩] }

/-- Model of `Program::run`: `run_with` on an empty globals map. -/
def Program.run (fuel : Nat) (p : Program) : Option (Except RuntimeError Value) :=
  p.run_with fuel []

/-! ## Value and table equality (`PartialEq for Value` / `PartialEq for Table`) -/

/-- A found binding is structurally smaller than its table (used for the
termination of the mutual value/table equality below). -/
theorem sizeOf_lt_of_tableGet {t : Table} {k : Primitive} {v : Value}
    (h : Table.get t k = some v) : sizeOf v < sizeOf t := by
  induction t with
  | nil => simp [Table.get] at h
  | cons kv rest ih =>
    match kv with
    | (k0, v0) =>
      rw [Table.get] at h
      by_cases hk : primEq k0 k = true
      · simp [hk] at h
        subst h
        simp
        omega
      · simp [hk] at h
        have := ih h
        simp
        omega

mutual

/-- Model of the derived `PartialEq for Value`: variants must match;
primitives compare structurally, tables with `PartialEq for Table`,
function pointers by address. -/
def valueEq : Value → Value → Bool
  | .prim a, .prim b => primEq a b
  | .table a, .table b => tableEq a b
  | .fptr a, .fptr b => a == b
  | _, _ => false
termination_by a b => sizeOf a + sizeOf b
decreasing_by
  simp
  omega

/-- Model of `PartialEq for Table` exactly as written in `table.rs`: every
non-Nil binding of the left table must be bound to an equal value in the
right table.  (Only the left table's bindings are inspected.)  The nested
value comparison is `other_value == Some(value)`, so the right table's
value is the left argument of `valueEq`. -/
def tableEq : Table → Table → Bool
  | [], _ => true
  | (k, v) :: rest, t2 =>
    (if v.is_nil then true
     else
       match h : Table.get t2 k with
       | some w => valueEq w v
       | none => false)
    && tableEq rest t2
termination_by t1 t2 => sizeOf t1 + sizeOf t2
decreasing_by
  all_goals simp
  have := sizeOf_lt_of_tableGet h
  omega

end

/-! ## Helper views used in the statements below -/

/-- The operand stack of the current (innermost) frame. -/
def stateTopStack (s : State) : List Value :=
  match s.stack_frames with
  | f :: _ => f.stack
  | [] => []

/-- The locals of the current (innermost) frame. -/
def stateTopLocals (s : State) : Vars :=
  match s.stack_frames with
  | f :: _ => f.locals
  | [] => []

/-- The state a `Res` outcome carries (the mutated state of `&mut State`,
on the ok path and the error path alike). -/
def resState {α : Type} : Res α → State
  | .ok _ s => s
  | .err _ s => s

/-- An association list faithfully represents a `HashMap` when no two of
its keys are equal. -/
def tableWF (t : Table) : Prop :=
  t.Pairwise (fun kv1 kv2 => primEq kv1.1 kv2.1 = false)

/-! ## Concrete states and tables used by the example theorems -/

/-- The value of a small natural number. -/
def numV (k : Nat) : Value := .prim (.num (f64ofNat k))

/-- A string value. -/
def strV (s : String) : Value := .prim (.str s)

/-- Two live frames: the inner one (with `"x"` on its operand stack) binds
nothing locally, the outer one binds `x = 1`; the globals are empty. -/
def c1State : State :=
  { pc := 0, globals := [],
    stack_frames := [⟨[], none, [strV "x"]⟩, ⟨[("x", numV 1)], some 7, []⟩] }

/-- The state after `PushName` on `c1State`: the outer frame's value `1`
was found and pushed onto the inner frame's operand stack. -/
def c1StateAfter : State :=
  { pc := 1, globals := [],
    stack_frames := [⟨[], none, [numV 1]⟩, ⟨[("x", numV 1)], some 7, []⟩] }

/-- Operand stack holding the table `{x: 1}` below the key `"x"`. -/
def c4State : State :=
  { pc := 0, globals := [],
    stack_frames := [⟨[], none, [strV "x", .table [(.str "x", numV 1)]]⟩] }

/-- The state after `TableGet` on `c4State`: the looked-up value sits on
top of the stack and the table is still below it. -/
def c4StateAfter : State :=
  { pc := 1, globals := [],
    stack_frames := [⟨[], none, [numV 1, .table [(.str "x", numV 1)]]⟩] }

/-- The arguments table of the spec's example: `{self: 1, 0: 2, b: 3, 2: 4}`. -/
def c5Args : Table :=
  [(.str "self", numV 1), (.num (f64ofNat 0), numV 2), (.str "b", numV 3),
   (.num (f64ofNat 2), numV 4)]

/-- Stack for `StoreFunctionArgs(true, 3)` with parameter pairs
`(a,0), (b,1), (c,2)` over `c5Args` (top of stack first). -/
def c5State : State :=
  { pc := 0, globals := [],
    stack_frames := [⟨[], none,
      [numV 2, strV "c", numV 1, strV "b", numV 0, strV "a", .table c5Args]⟩] }

/-- The state after binding: `self=1, a=2, b=3, c=4` in the locals. -/
def c5StateAfter : State :=
  { pc := 1, globals := [],
    stack_frames := [⟨[("c", numV 4), ("b", numV 3), ("a", numV 2), ("self", numV 1)],
      none, []⟩] }

/-- Stack for `StoreFunctionArgs(false, 2)` with pairs `(a,0), (b,0)` over
the table `{0: 5}`: both parameters fall back to the same positional slot. -/
def c5DoubleState : State :=
  { pc := 0, globals := [],
    stack_frames := [⟨[], none,
      [numV 0, strV "b", numV 0, strV "a", .table [(.num (f64ofNat 0), numV 5)]]⟩] }

/-- The state at the failure: `b` consumed slot `0` (and cleared it), so
resolving `a` finds Nil and the bind fails. -/
def c5DoubleAfter : State :=
  { pc := 1, globals := [], stack_frames := [⟨[("b", numV 5)], none, []⟩] }

/-- The initial state of a run: one frame, everything empty. -/
def c6State : State := { pc := 0, globals := [], stack_frames := [⟨[], none, []⟩] }

/-- `c6State` after a failed `Pop`: the program counter was already incremented. -/
def c6StateAfter : State := { pc := 1, globals := [], stack_frames := [⟨[], none, []⟩] }

/-- Left merge operand `{k: 1}`. -/
def c7a : Table := [(.str "k", numV 1)]

/-- Right merge operand binding `k` to Nil. -/
def c7b : Table := [(.str "k", Value.nil)]

/-- The spec's merge example, left operand `{a: 1, b: 2}`. -/
def c7ma : Table := [(.str "a", numV 1), (.str "b", numV 2)]

/-- The spec's merge example, right operand `{b: 3, c: 4}`. -/
def c7mb : Table := [(.str "b", numV 3), (.str "c", numV 4)]

/-- An empty one-frame state for the jump instructions. -/
def c8State : State := { pc := 0, globals := [], stack_frames := [⟨[], none, []⟩] }

/-- A state with `true` on the operand stack for the conditional jumps. -/
def c8CondState : State :=
  { pc := 0, globals := [], stack_frames := [⟨[], none, [.prim (.bool true)]⟩] }

/-- Bit pattern of `-0.0`. -/
def negZeroBits : Nat := 0x8000000000000000

/-- Bit pattern of a (quiet) NaN. -/
def nanExBits : Nat := 0x7FF8000000000000

/-- Bit pattern of negative infinity. -/
def negInfBits : Nat := 0xFFF0000000000000

/-- The table `{a: 1}`. -/
def c10t : Table := [(.str "a", numV 1)]

/-! ## Helper lemmas -/

/-- Nil is Nil. -/
theorem is_nil_prim_nil : (Value.prim .nil).is_nil = true := rfl

/-- `Value.nil` is Nil. -/
theorem is_nil_value_nil : Value.nil.is_nil = true := rfl


theorem numberEq_symm {a b : Nat} (h : numberEq a b = true) : numberEq b a = true := by
  simp only [numberEq, f64Eq, Bool.or_eq_true, Bool.and_eq_true, Bool.not_eq_true',
    beq_iff_eq] at h ⊢
  rcases h with ⟨h1, h2⟩ | ⟨⟨h1, h2⟩, h3⟩
  · exact Or.inl ⟨h2, h1⟩
  · exact Or.inr ⟨⟨h2, h1⟩, h3.symm⟩

theorem numberEq_trans {a b c : Nat} (hab : numberEq a b = true)
    (hbc : numberEq b c = true) : numberEq a c = true := by
  simp only [numberEq, f64Eq, Bool.or_eq_true, Bool.and_eq_true, Bool.not_eq_true',
    beq_iff_eq] at hab hbc ⊢
  rcases hab with ⟨h1, h2⟩ | ⟨⟨h1, h2⟩, h3⟩ <;> rcases hbc with ⟨g1, g2⟩ | ⟨⟨g1, g2⟩, g3⟩
  · exact Or.inl ⟨h1, g2⟩
  · exact absurd h2 (by simp [g1])
  · exact absurd g1 (by simp [h2])
  · exact Or.inr ⟨⟨h1, g2⟩, h3.trans g3⟩

theorem primEq_symm {a b : Primitive} (h : primEq a b = true) : primEq b a = true := by
  cases a <;> cases b <;> simp [primEq] at h ⊢ <;>
    first
      | exact h.symm
      | exact numberEq_symm h

theorem primEq_trans {a b c : Primitive} (hab : primEq a b = true)
    (hbc : primEq b c = true) : primEq a c = true := by
  cases a <;> cases b <;> cases c <;> simp [primEq] at hab hbc ⊢ <;>
    first
      | exact hab.trans hbc
      | exact numberEq_trans hab hbc



theorem tableGet_set_eq {t : Table} {k k0 : Primitive} {v : Value}
    (h : primEq k k0 = true) : Table.get (Table.set t k v) k0 = some v := by
  induction t with
  | nil => simp [Table.get, Table.set, h]
  | cons kv rest ih =>
    match kv with
    | (k1, v1) =>
      by_cases h1 : primEq k1 k = true
      · have h2 : primEq k1 k0 = true := primEq_trans h1 h
        simp [Table.set, Table.get, h1, h2]
      · have h2 : primEq k1 k0 = false := by
          cases hc : primEq k1 k0
          · rfl
          · exact absurd (primEq_trans hc (primEq_symm h)) (by simp [h1])
        simp [Table.set, Table.get, h1, h2, ih]

theorem tableGet_set_ne {t : Table} {k k0 : Primitive} {v : Value}
    (h : primEq k k0 = false) : Table.get (Table.set t k v) k0 = Table.get t k0 := by
  induction t with
  | nil => simp [Table.get, Table.set, h]
  | cons kv rest ih =>
    match kv with
    | (k1, v1) =>
      by_cases h1 : primEq k1 k = true
      · have h2 : primEq k1 k0 = false := by
          cases hc : primEq k1 k0
          · rfl
          · exact absurd (primEq_trans (primEq_symm h1) hc) (by simp [h])
        simp [Table.set, Table.get, h1, h2]
      · by_cases h2 : primEq k1 k0 = true <;> simp [Table.set, Table.get, h1, h2, ih]

theorem tableGet_none_of_all {rest : Table} {k k0 : Primitive}
    (hall : ∀ x ∈ rest, primEq k0 x.1 = false) (h : primEq k0 k = true) :
    Table.get rest k = none := by
  induction rest with
  | nil => rfl
  | cons kv r ih =>
    have hk1 : primEq k0 kv.1 = false := hall kv (List.mem_cons_self kv r)
    have hc : primEq kv.1 k = false := by
      cases hc : primEq kv.1 k
      · rfl
      · exact absurd (primEq_trans h (primEq_symm hc)) (by simp [hk1])
    match kv with
    | (k1, v1) =>
      simp only [Table.get]
      simp only at hc
      simp [hc, ih (fun x hx => hall x (List.mem_cons_of_mem _ hx))]

theorem mergeTables_cons (a : Table) (k : Primitive) (v : Value) (rest : Table) :
    mergeTables a ((k, v) :: rest)
      = if v.is_nil then mergeTables a rest else mergeTables (Table.set a k v) rest := by
  cases hv : v.is_nil <;> simp [mergeTables, List.filter_cons, hv]

theorem mergeTables_get {b : Table} (hb : tableWF b) (a : Table) (k : Primitive) :
    Table.get (mergeTables a b) k =
      match Table.get b k with
      | some w => if w.is_nil then Table.get a k else some w
      | none => Table.get a k := by
  induction b generalizing a with
  | nil => simp [mergeTables, Table.get]
  | cons kv rest ih =>
    obtain ⟨hhead, htail⟩ := List.pairwise_cons.mp hb
    match kv with
    | (kb, vb) =>
      rw [mergeTables_cons]
      by_cases hnil : vb.is_nil = true
      · rw [if_pos hnil, ih htail a]
        by_cases hk : primEq kb k = true
        · have hnone : Table.get rest k = none :=
            tableGet_none_of_all (fun x hx => hhead x hx) hk
          simp [Table.get, hk, hnil, hnone]
        · simp only [Bool.not_eq_true] at hk
          simp [Table.get, hk]
      · rw [if_neg hnil, ih htail (Table.set a kb vb)]
        simp only [Bool.not_eq_true] at hnil
        by_cases hk : primEq kb k = true
        · have hnone : Table.get rest k = none :=
            tableGet_none_of_all (fun x hx => hhead x hx) hk
          simp [Table.get, hk, hnone, hnil, tableGet_set_eq hk]
        · simp only [Bool.not_eq_true] at hk
          simp [Table.get, hk, tableGet_set_ne hk]



theorem globals_incr_pc (s : State) : (State.incr_pc s).globals = s.globals := rfl

theorem globals_pop_stack (s : State) : (resState s.pop_stack).globals = s.globals := by
  rcases s with ⟨pc, g, frames⟩
  rcases frames with _ | ⟨⟨l, ra, stk⟩, rest⟩
  · rfl
  · rcases stk with _ | ⟨v, vs⟩ <;> rfl

theorem globals_push_stack (s : State) (v : Value) :
    (resState (s.push_stack v)).globals = s.globals := by
  rcases s with ⟨pc, g, frames⟩
  rcases frames with _ | ⟨⟨l, ra, stk⟩, rest⟩ <;> rfl

theorem globals_peek_stack (s : State) : (resState s.peek_stack).globals = s.globals := by
  rcases s with ⟨pc, g, frames⟩
  rcases frames with _ | ⟨⟨l, ra, stk⟩, rest⟩
  · rfl
  · rcases stk with _ | ⟨v, vs⟩ <;> rfl

theorem globals_set_var (s : State) (n : String) (v : Value) :
    (resState (s.set_var n v)).globals = s.globals := by
  rcases s with ⟨pc, g, frames⟩
  rcases frames with _ | ⟨⟨l, ra, stk⟩, rest⟩ <;> rfl

theorem globals_pop_ok {s : State} {v : Value} {s1 : State}
    (h : State.pop_stack s = .ok v s1) : s1.globals = s.globals := by
  have hg := globals_pop_stack s
  rw [h] at hg
  exact hg

theorem globals_pop_err {s : State} {e : RuntimeError} {s1 : State}
    (h : State.pop_stack s = .err e s1) : s1.globals = s.globals := by
  have hg := globals_pop_stack s
  rw [h] at hg
  exact hg

theorem globals_push_ok {s : State} {v : Value} {u : Unit} {s1 : State}
    (h : State.push_stack s v = .ok u s1) : s1.globals = s.globals := by
  have hg := globals_push_stack s v
  rw [h] at hg
  exact hg

theorem globals_push_err {s : State} {v : Value} {e : RuntimeError} {s1 : State}
    (h : State.push_stack s v = .err e s1) : s1.globals = s.globals := by
  have hg := globals_push_stack s v
  rw [h] at hg
  exact hg

theorem globals_peek_ok {s : State} {v : Value} {s1 : State}
    (h : State.peek_stack s = .ok v s1) : s1.globals = s.globals := by
  have hg := globals_peek_stack s
  rw [h] at hg
  exact hg

theorem globals_peek_err {s : State} {e : RuntimeError} {s1 : State}
    (h : State.peek_stack s = .err e s1) : s1.globals = s.globals := by
  have hg := globals_peek_stack s
  rw [h] at hg
  exact hg

theorem globals_set_var_ok {s : State} {n : String} {v : Value} {u : Unit} {s1 : State}
    (h : State.set_var s n v = .ok u s1) : s1.globals = s.globals := by
  have hg := globals_set_var s n v
  rw [h] at hg
  exact hg

theorem globals_set_var_err {s : State} {n : String} {v : Value} {e : RuntimeError} {s1 : State}
    (h : State.set_var s n v = .err e s1) : s1.globals = s.globals := by
  have hg := globals_set_var s n v
  rw [h] at hg
  exact hg

theorem globals_listBuildLoop (n : Nat) (t : Table) (s : State) :
    (resState (listBuildLoop n t s)).globals = s.globals := by
  induction n generalizing t s with
  | zero => rfl
  | succ k ih =>
    cases h : s.pop_stack with
    | err e s1 =>
      simp only [listBuildLoop, h, resState]
      exact globals_pop_err h
    | ok v s1 =>
      simp only [listBuildLoop, h]
      rw [ih, globals_pop_ok h]

theorem globals_dictPairsLoop (n : Nat) (s : State) :
    (resState (dictPairsLoop n s)).globals = s.globals := by
  induction n generalizing s with
  | zero => rfl
  | succ k ih =>
    cases h1 : s.pop_stack with
    | err e s1 =>
      simp only [dictPairsLoop, h1, resState]
      exact globals_pop_err h1
    | ok value s1 =>
      cases h2 : s1.pop_stack with
      | err e s2 =>
        simp only [dictPairsLoop, h1, h2, resState]
        rw [globals_pop_err h2, globals_pop_ok h1]
      | ok keyv s2 =>
        cases hk : keyv.into_primitive with
        | none =>
          simp only [dictPairsLoop, h1, h2, hk, resState]
          rw [globals_pop_ok h2, globals_pop_ok h1]
        | some key =>
          cases h3 : dictPairsLoop k s2 with
          | err e s3 =>
            have hg3 := ih s2
            rw [h3] at hg3
            simp only [dictPairsLoop, h1, h2, hk, h3, resState] at hg3 ⊢
            rw [hg3, globals_pop_ok h2, globals_pop_ok h1]
          | ok rest s3 =>
            have hg3 := ih s2
            rw [h3] at hg3
            simp only [dictPairsLoop, h1, h2, hk, h3, resState] at hg3 ⊢
            rw [hg3, globals_pop_ok h2, globals_pop_ok h1]



theorem globals_sfaPopPairs (n : Nat) (s : State) :
    (resState (sfaPopPairs n s)).globals = s.globals := by
  induction n generalizing s with
  | zero => rfl
  | succ k ih =>
    cases h1 : s.pop_stack with
    | err e s1 =>
      simp only [sfaPopPairs, h1, resState]
      exact globals_pop_err h1
    | ok positional s1 =>
      cases h2 : s1.pop_stack with
      | err e s2 =>
        simp only [sfaPopPairs, h1, h2, resState]
        rw [globals_pop_err h2, globals_pop_ok h1]
      | ok named s2 =>
        cases h3 : sfaPopPairs k s2 with
        | err e s3 =>
          have hg3 := ih s2
          rw [h3] at hg3
          simp only [sfaPopPairs, h1, h2, h3, resState] at hg3 ⊢
          rw [hg3, globals_pop_ok h2, globals_pop_ok h1]
        | ok rest s3 =>
          have hg3 := ih s2
          rw [h3] at hg3
          simp only [sfaPopPairs, h1, h2, h3, resState] at hg3 ⊢
          rw [hg3, globals_pop_ok h2, globals_pop_ok h1]

theorem globals_sfaBind (pairs : List (Value × Value)) (t : Table) (s : State) :
    (resState (sfaBind pairs t s)).globals = s.globals := by
  induction pairs generalizing t s with
  | nil => rfl
  | cons pair rest ih =>
    match pair with
    | (positional, named) =>
      cases hn : named.get_string with
      | none => simp [sfaBind, hn, resState]
      | some nm =>
        by_cases h1 : (Table.get_mut t (.str nm)).1.is_nil = true
        · cases hp : positional.get_f64 with
          | none => simp [sfaBind, hn, h1, hp, resState]
          | some pb =>
            by_cases h2 : (Table.get_mut (Table.get_mut t (.str nm)).2 (.num pb)).1.is_nil = true
            · simp [sfaBind, hn, h1, hp, h2, resState]
            · cases hs : s.set_var nm (Table.get_mut (Table.get_mut t (.str nm)).2 (.num pb)).1 with
              | err e s1 =>
                simp [sfaBind, hn, h1, hp, h2, hs, resState]
                exact globals_set_var_err hs
              | ok u s1 =>
                simp [sfaBind, hn, h1, hp, h2, hs]
                rw [ih, globals_set_var_ok hs]
        · cases hs : s.set_var nm (Table.get_mut t (.str nm)).1 with
          | err e s1 =>
            simp [sfaBind, hn, h1, hs, resState]
            exact globals_set_var_err hs
          | ok u s1 =>
            simp [sfaBind, hn, h1, hs]
            rw [ih, globals_set_var_ok hs]

theorem globals_sfaSelf (t : Table) (s : State) :
    (resState (sfaSelf t s)).globals = s.globals := by
  by_cases h1 : (Table.get_mut t (.str "self")).1.is_nil = true
  · simp [sfaSelf, h1, resState]
  · cases hs : s.set_var "self" (Table.get_mut t (.str "self")).1 with
    | err e s1 =>
      simp [sfaSelf, h1, hs, resState]
      exact globals_set_var_err hs
    | ok u s1 =>
      simp [sfaSelf, h1, hs, resState]
      exact globals_set_var_ok hs



theorem globals_listBuild_ok {n : Nat} {t0 t : Table} {s s1 : State}
    (h : listBuildLoop n t0 s = .ok t s1) : s1.globals = s.globals := by
  have hg := globals_listBuildLoop n t0 s
  rw [h] at hg
  exact hg

theorem globals_listBuild_err {n : Nat} {t0 : Table} {e : RuntimeError} {s s1 : State}
    (h : listBuildLoop n t0 s = .err e s1) : s1.globals = s.globals := by
  have hg := globals_listBuildLoop n t0 s
  rw [h] at hg
  exact hg

theorem globals_dictPairs_ok {n : Nat} {ps : List (Primitive × Value)} {s s1 : State}
    (h : dictPairsLoop n s = .ok ps s1) : s1.globals = s.globals := by
  have hg := globals_dictPairsLoop n s
  rw [h] at hg
  exact hg

theorem globals_dictPairs_err {n : Nat} {e : RuntimeError} {s s1 : State}
    (h : dictPairsLoop n s = .err e s1) : s1.globals = s.globals := by
  have hg := globals_dictPairsLoop n s
  rw [h] at hg
  exact hg

theorem globals_sfaPop_ok {n : Nat} {ps : List (Value × Value)} {s s1 : State}
    (h : sfaPopPairs n s = .ok ps s1) : s1.globals = s.globals := by
  have hg := globals_sfaPopPairs n s
  rw [h] at hg
  exact hg

theorem globals_sfaPop_err {n : Nat} {e : RuntimeError} {s s1 : State}
    (h : sfaPopPairs n s = .err e s1) : s1.globals = s.globals := by
  have hg := globals_sfaPopPairs n s
  rw [h] at hg
  exact hg

theorem globals_sfaBind_ok {ps : List (Value × Value)} {t0 t : Table} {s s1 : State}
    (h : sfaBind ps t0 s = .ok t s1) : s1.globals = s.globals := by
  have hg := globals_sfaBind ps t0 s
  rw [h] at hg
  exact hg

theorem globals_sfaBind_err {ps : List (Value × Value)} {t0 : Table} {e : RuntimeError}
    {s s1 : State} (h : sfaBind ps t0 s = .err e s1) : s1.globals = s.globals := by
  have hg := globals_sfaBind ps t0 s
  rw [h] at hg
  exact hg

theorem globals_sfaSelf_ok {t0 t : Table} {s s1 : State}
    (h : sfaSelf t0 s = .ok t s1) : s1.globals = s.globals := by
  have hg := globals_sfaSelf t0 s
  rw [h] at hg
  exact hg

theorem globals_sfaSelf_err {t0 : Table} {e : RuntimeError} {s s1 : State}
    (h : sfaSelf t0 s = .err e s1) : s1.globals = s.globals := by
  have hg := globals_sfaSelf t0 s
  rw [h] at hg
  exact hg



theorem eval_globals (i : Instruction) (s : State) (r : Res (Option Value))
    (h : Instruction.eval i s = some r) : (resState r).globals = s.globals := by
  cases i with
  | nop =>
    simp only [Instruction.eval, Option.some.injEq] at h
    subst h
    rfl
  | copy =>
    cases h1 : s.incr_pc.peek_stack with
    | err e s1 =>
      simp only [Instruction.eval, h1, Option.some.injEq] at h
      subst h
      simp only [resState]
      rw [globals_peek_err h1]
      rfl
    | ok v s1 =>
      cases h2 : s1.push_stack v with
      | err e s2 =>
          simp only [Instruction.eval, h1, h2, Option.some.injEq] at h
          subst h
          simp only [resState]
          rw [globals_push_err h2, globals_peek_ok h1]
          rfl
      | ok u s2 =>
          simp only [Instruction.eval, h1, h2, Option.some.injEq] at h
          subst h
          simp only [resState]
          rw [globals_push_ok h2, globals_peek_ok h1]
          rfl
  | swap =>
    cases h1 : s.incr_pc.pop_stack with
    | err e s1 =>
      simp only [Instruction.eval, h1, Option.some.injEq] at h
      subst h
      simp only [resState]
      rw [globals_pop_err h1]
      rfl
    | ok tos s1 =>
      cases h2 : s1.pop_stack with
      | err e s2 =>
          simp only [Instruction.eval, h1, h2, Option.some.injEq] at h
          subst h
          simp only [resState]
          rw [globals_pop_err h2, globals_pop_ok h1]
          rfl
      | ok tos1 s2 =>
        cases h3 : s2.push_stack tos with
        | err e s3 =>
            simp only [Instruction.eval, h1, h2, h3, Option.some.injEq] at h
            subst h
            simp only [resState]
            rw [globals_push_err h3, globals_pop_ok h2, globals_pop_ok h1]
            rfl
        | ok u s3 =>
          cases h4 : s3.push_stack tos1 with
          | err e s4 =>
              simp only [Instruction.eval, h1, h2, h3, h4, Option.some.injEq] at h
              subst h
              simp only [resState]
              rw [globals_push_err h4, globals_push_ok h3, globals_pop_ok h2, globals_pop_ok h1]
              rfl
          | ok u2 s4 =>
              simp only [Instruction.eval, h1, h2, h3, h4, Option.some.injEq] at h
              subst h
              simp only [resState]
              rw [globals_push_ok h4, globals_push_ok h3, globals_pop_ok h2, globals_pop_ok h1]
              rfl
  | pop =>
    cases h1 : s.incr_pc.pop_stack with
    | err e s1 =>
      simp only [Instruction.eval, h1, Option.some.injEq] at h
      subst h
      simp only [resState]
      rw [globals_pop_err h1]
      rfl
    | ok v s1 =>
      simp only [Instruction.eval, h1, Option.some.injEq] at h
      subst h
      simp only [resState]
      rw [globals_pop_ok h1]
      rfl
  | storeName =>
    cases h1 : s.incr_pc.pop_stack with
    | err e s1 =>
      simp only [Instruction.eval, h1, Option.some.injEq] at h
      subst h
      simp only [resState]
      rw [globals_pop_err h1]
      rfl
    | ok value s1 =>
      cases h2 : s1.pop_stack with
      | err e s2 =>
          simp only [Instruction.eval, h1, h2, Option.some.injEq] at h
          subst h
          simp only [resState]
          rw [globals_pop_err h2, globals_pop_ok h1]
          rfl
      | ok name s2 =>
        cases hn : name.get_string with
        | none =>
            simp only [Instruction.eval, h1, h2, hn, Option.some.injEq] at h
            subst h
            simp only [resState]
            rw [globals_pop_ok h2, globals_pop_ok h1]
            rfl
        | some var =>
          cases h3 : s2.set_var var value with
          | err e s3 =>
              simp only [Instruction.eval, h1, h2, hn, h3, Option.some.injEq] at h
              subst h
              simp only [resState]
              rw [globals_set_var_err h3, globals_pop_ok h2, globals_pop_ok h1]
              rfl
          | ok u s3 =>
              simp only [Instruction.eval, h1, h2, hn, h3, Option.some.injEq] at h
              subst h
              simp only [resState]
              rw [globals_set_var_ok h3, globals_pop_ok h2, globals_pop_ok h1]
              rfl
  | storePrimitive p =>
    cases h1 : s.incr_pc.pop_stack with
    | err e s1 =>
      simp only [Instruction.eval, h1, Option.some.injEq] at h
      subst h
      simp only [resState]
      rw [globals_pop_err h1]
      rfl
    | ok name s1 =>
      cases hn : name.get_string with
      | none =>
          simp only [Instruction.eval, h1, hn, Option.some.injEq] at h
          subst h
          simp only [resState]
          rw [globals_pop_ok h1]
          rfl
      | some var =>
        cases h2 : s1.set_var var (.prim p) with
        | err e s2 =>
            simp only [Instruction.eval, h1, hn, h2, Option.some.injEq] at h
            subst h
            simp only [resState]
            rw [globals_set_var_err h2, globals_pop_ok h1]
            rfl
        | ok u s2 =>
            simp only [Instruction.eval, h1, hn, h2, Option.some.injEq] at h
            subst h
            simp only [resState]
            rw [globals_set_var_ok h2, globals_pop_ok h1]
            rfl
  | pushName =>
    cases h1 : s.incr_pc.pop_stack with
    | err e s1 =>
      simp only [Instruction.eval, h1, Option.some.injEq] at h
      subst h
      simp only [resState]
      rw [globals_pop_err h1]
      rfl
    | ok name s1 =>
      cases hn : name.get_string with
      | none =>
          simp only [Instruction.eval, h1, hn, Option.some.injEq] at h
          subst h
          simp only [resState]
          rw [globals_pop_ok h1]
          rfl
      | some var =>
        cases hv : s1.get_var var with
        | error e =>
            simp only [Instruction.eval, h1, hn, hv, Option.some.injEq] at h
            subst h
            simp only [resState]
            rw [globals_pop_ok h1]
            rfl
        | ok value =>
          cases h2 : s1.push_stack value with
          | err e s2 =>
              simp only [Instruction.eval, h1, hn, hv, h2, Option.some.injEq] at h
              subst h
              simp only [resState]
              rw [globals_push_err h2, globals_pop_ok h1]
              rfl
          | ok u s2 =>
              simp only [Instruction.eval, h1, hn, hv, h2, Option.some.injEq] at h
              subst h
              simp only [resState]
              rw [globals_push_ok h2, globals_pop_ok h1]
              rfl
  | pushPrimitive p =>
    cases h1 : s.incr_pc.push_stack (.prim p) with
    | err e s1 =>
      simp only [Instruction.eval, h1, Option.some.injEq] at h
      subst h
      simp only [resState]
      rw [globals_push_err h1]
      rfl
    | ok u s1 =>
      simp only [Instruction.eval, h1, Option.some.injEq] at h
      subst h
      simp only [resState]
      rw [globals_push_ok h1]
      rfl
  | tableGet =>
    cases h1 : s.incr_pc.pop_stack with
    | err e s1 =>
      simp only [Instruction.eval, h1, Option.some.injEq] at h
      subst h
      simp only [resState]
      rw [globals_pop_err h1]
      rfl
    | ok keyv s1 =>
      cases hk : keyv.into_primitive with
      | none =>
          simp only [Instruction.eval, h1, hk, Option.some.injEq] at h
          subst h
          simp only [resState]
          rw [globals_pop_ok h1]
          rfl
      | some key =>
        cases h2 : s1.peek_stack with
        | err e s2 =>
            simp only [Instruction.eval, h1, hk, h2, Option.some.injEq] at h
            subst h
            simp only [resState]
            rw [globals_peek_err h2, globals_pop_ok h1]
            rfl
        | ok tos s2 =>
          cases tos with
          | table t =>
            cases h3 : s2.push_stack ((Table.get t key).getD Value.nil) with
            | err e s3 =>
                simp only [Instruction.eval, h1, hk, h2, h3, Option.some.injEq] at h
                subst h
                simp only [resState]
                rw [globals_push_err h3, globals_peek_ok h2, globals_pop_ok h1]
                rfl
            | ok u s3 =>
                simp only [Instruction.eval, h1, hk, h2, h3, Option.some.injEq] at h
                subst h
                simp only [resState]
                rw [globals_push_ok h3, globals_peek_ok h2, globals_pop_ok h1]
                rfl
          | prim q =>
              simp only [Instruction.eval, h1, hk, h2, Option.some.injEq] at h
              subst h
              simp only [resState]
              rw [globals_peek_ok h2, globals_pop_ok h1]
              rfl
          | fptr a =>
              simp only [Instruction.eval, h1, hk, h2, Option.some.injEq] at h
              subst h
              simp only [resState]
              rw [globals_peek_ok h2, globals_pop_ok h1]
              rfl
  | tableListBuild n =>
    cases h1 : listBuildLoop n [] s.incr_pc with
    | err e s1 =>
      simp only [Instruction.eval, h1, Option.some.injEq] at h
      subst h
      simp only [resState]
      rw [globals_listBuild_err h1]
      rfl
    | ok t s1 =>
      cases h2 : s1.push_stack (.table t) with
      | err e s2 =>
          simp only [Instruction.eval, h1, h2, Option.some.injEq] at h
          subst h
          simp only [resState]
          rw [globals_push_err h2, globals_listBuild_ok h1]
          rfl
      | ok u s2 =>
          simp only [Instruction.eval, h1, h2, Option.some.injEq] at h
          subst h
          simp only [resState]
          rw [globals_push_ok h2, globals_listBuild_ok h1]
          rfl
  | tableDictBuild n =>
    cases h1 : dictPairsLoop n s.incr_pc with
    | err e s1 =>
      simp only [Instruction.eval, h1, Option.some.injEq] at h
      subst h
      simp only [resState]
      rw [globals_dictPairs_err h1]
      rfl
    | ok pairs s1 =>
      cases h2 : s1.push_stack (.table (pairs.reverse.foldl (fun t kv => Table.set t kv.1 kv.2) ([] : Table))) with
      | err e s2 =>
          simp only [Instruction.eval, h1, h2, Option.some.injEq] at h
          subst h
          simp only [resState]
          rw [globals_push_err h2, globals_dictPairs_ok h1]
          rfl
      | ok u s2 =>
          simp only [Instruction.eval, h1, h2, Option.some.injEq] at h
          subst h
          simp only [resState]
          rw [globals_push_ok h2, globals_dictPairs_ok h1]
          rfl
  | tableMerge =>
    cases h1 : s.incr_pc.pop_stack with
    | err e s1 =>
      simp only [Instruction.eval, h1, Option.some.injEq] at h
      subst h
      simp only [resState]
      rw [globals_pop_err h1]
      rfl
    | ok tosv s1 =>
      cases ht : tosv.into_table with
      | none =>
          simp only [Instruction.eval, h1, ht, Option.some.injEq] at h
          subst h
          simp only [resState]
          rw [globals_pop_ok h1]
          rfl
      | some tos =>
        cases h2 : s1.pop_stack with
        | err e s2 =>
            simp only [Instruction.eval, h1, ht, h2, Option.some.injEq] at h
            subst h
            simp only [resState]
            rw [globals_pop_err h2, globals_pop_ok h1]
            rfl
        | ok tos1v s2 =>
          cases ht1 : tos1v.into_table with
          | none =>
              simp only [Instruction.eval, h1, ht, h2, ht1, Option.some.injEq] at h
              subst h
              simp only [resState]
              rw [globals_pop_ok h2, globals_pop_ok h1]
              rfl
          | some tos1 =>
            cases h3 : s2.push_stack (.table (mergeTables tos1 tos)) with
            | err e s3 =>
                simp only [Instruction.eval, h1, ht, h2, ht1, h3, Option.some.injEq] at h
                subst h
                simp only [resState]
                rw [globals_push_err h3, globals_pop_ok h2, globals_pop_ok h1]
                rfl
            | ok u s3 =>
                simp only [Instruction.eval, h1, ht, h2, ht1, h3, Option.some.injEq] at h
                subst h
                simp only [resState]
                rw [globals_push_ok h3, globals_pop_ok h2, globals_pop_ok h1]
                rfl
  | storeFunctionArgs get_self n =>
    cases h1 : sfaPopPairs n s.incr_pc with
    | err e s1 =>
      simp only [Instruction.eval, h1, Option.some.injEq] at h
      subst h
      simp only [resState]
      rw [globals_sfaPop_err h1]
      rfl
    | ok pairs s1 =>
      cases h2 : s1.pop_stack with
      | err e s2 =>
          simp only [Instruction.eval, h1, h2, Option.some.injEq] at h
          subst h
          simp only [resState]
          rw [globals_pop_err h2, globals_sfaPop_ok h1]
          rfl
      | ok tosv s2 =>
        cases ht : tosv.into_table with
        | none =>
            simp only [Instruction.eval, h1, h2, ht, Option.some.injEq] at h
            subst h
            simp only [resState]
            rw [globals_pop_ok h2, globals_sfaPop_ok h1]
            rfl
        | some tos =>
          cases h3 : sfaBind pairs tos s2 with
          | err e s3 =>
              simp only [Instruction.eval, h1, h2, ht, h3, Option.some.injEq] at h
              subst h
              simp only [resState]
              rw [globals_sfaBind_err h3, globals_pop_ok h2, globals_sfaPop_ok h1]
              rfl
          | ok t s3 =>
            cases get_self with
            | false =>
                simp only [Instruction.eval, h1, h2, ht, h3, Option.some.injEq] at h
                subst h
                show (resState (Res.ok (α := Option Value) none s3)).globals = s.globals
                simp only [resState]
                rw [globals_sfaBind_ok h3, globals_pop_ok h2, globals_sfaPop_ok h1]
                rfl
            | true =>
              cases h4 : sfaSelf t s3 with
              | err e s4 =>
                  simp only [Instruction.eval, h1, h2, ht, h3, h4, Option.some.injEq] at h
                  subst h
                  show (resState (Res.err (α := Option Value) e s4)).globals = s.globals
                  simp only [resState]
                  rw [globals_sfaSelf_err h4, globals_sfaBind_ok h3, globals_pop_ok h2, globals_sfaPop_ok h1]
                  rfl
              | ok t2 s4 =>
                  simp only [Instruction.eval, h1, h2, ht, h3, h4, Option.some.injEq] at h
                  subst h
                  show (resState (Res.ok (α := Option Value) none s4)).globals = s.globals
                  simp only [resState]
                  rw [globals_sfaSelf_ok h4, globals_sfaBind_ok h3, globals_pop_ok h2, globals_sfaPop_ok h1]
                  rfl
  | ret =>
    cases h1 : s.pop_stack with
    | err e s1 =>
      simp only [Instruction.eval, h1, Option.some.injEq] at h
      subst h
      simp only [resState]
      exact globals_pop_err h1
    | ok value s1 =>
      cases hf : s1.stack_frames with
      | nil =>
        simp only [Instruction.eval, h1, hf, Option.some.injEq] at h
        subst h
        simp only [resState]
        exact globals_pop_ok h1
      | cons frame rest =>
        cases hra : frame.return_address with
        | none =>
          simp only [Instruction.eval, h1, hf, hra, Option.some.injEq] at h
          subst h
          simp only [resState]
          show s1.globals = s.globals
          exact globals_pop_ok h1
        | some ra =>
          cases h2 : State.push_stack { pc := ra, globals := s1.globals, stack_frames := rest } value with
          | err e s2 =>
            simp only [Instruction.eval, h1, hf, hra, h2, Option.some.injEq] at h
            subst h
            simp only [resState]
            have hg2 := globals_push_err h2
            rw [hg2]
            show s1.globals = s.globals
            exact globals_pop_ok h1
          | ok u s2 =>
            simp only [Instruction.eval, h1, hf, hra, h2, Option.some.injEq] at h
            subst h
            simp only [resState]
            have hg2 := globals_push_ok h2
            rw [hg2]
            show s1.globals = s.globals
            exact globals_pop_ok h1
  | unaryOp op => simp [Instruction.eval] at h
  | binaryOp op => simp [Instruction.eval] at h
  | popJumpIfTrue n => simp [Instruction.eval] at h
  | popJumpIfFalse n => simp [Instruction.eval] at h
  | jump n => simp [Instruction.eval] at h
  | pushFunction n => simp [Instruction.eval] at h
  | call => simp [Instruction.eval] at h

/-! ## The claims -/

/-- C1, counterexample: a name bound only in the locals of an outer,
still-live call frame (not in the current frame's locals, not in the
globals) IS found by variable lookup, and `PushName` of it succeeds —
the claim says the lookup sees only the innermost frame's locals and
fails with `InvalidVariable` here. -/
theorem c1_counterexample_outer_binding_found :
    State.get_var c1State "x" = .ok (numV 1)
      ∧ Instruction.pushName.eval c1State = some (.ok none c1StateAfter) :=
  ⟨rfl, rfl⟩

/-- C1 (amended): variable lookup searches the locals of every live frame
from the innermost frame outwards and then the globals; a name bound only
in an outer, still-live frame's locals (and not in the current frame's
locals or in the globals) is therefore found, and `PushName` of such a
name succeeds, pushing the outer frame's value. -/
theorem c1_lookup_all_frames_then_globals
    (pc : Nat) (g il ol : Vars) (ira ora : Option Nat) (istk ostk : List Value)
    (rest : List StackFrame) (name : String) (v : Value)
    (hinner : varsGet il name = none) (hglob : varsGet g name = none)
    (houter : varsGet ol name = some v) :
    State.get_var ⟨pc, g, ⟨il, ira, istk⟩ :: ⟨ol, ora, ostk⟩ :: rest⟩ name = .ok v
      ∧ Instruction.pushName.eval
          ⟨pc, g, ⟨il, ira, .prim (.str name) :: istk⟩ :: ⟨ol, ora, ostk⟩ :: rest⟩
        = some (.ok none ⟨pc + 1, g, ⟨il, ira, v :: istk⟩ :: ⟨ol, ora, ostk⟩ :: rest⟩) := by
  constructor
  · simp [State.get_var, framesLookup, hinner, houter]
  · simp [Instruction.eval, State.incr_pc, State.pop_stack, State.push_stack,
      Value.get_string, State.get_var, framesLookup, hinner, houter]

/-- C1 witness for the amended theorem, at the two-frame state of the
counterexample's shape. -/
theorem c1_lookup_all_frames_then_globals_witness :
    State.get_var ⟨0, [], ⟨[], none, []⟩ :: ⟨[("x", numV 1)], some 7, []⟩ :: []⟩ "x"
        = .ok (numV 1)
      ∧ Instruction.pushName.eval
          ⟨0, [], ⟨[], none, .prim (.str "x") :: []⟩ :: ⟨[("x", numV 1)], some 7, []⟩ :: []⟩
        = some (.ok none
            ⟨0 + 1, [], ⟨[], none, numV 1 :: []⟩ :: ⟨[("x", numV 1)], some 7, []⟩ :: []⟩) :=
  c1_lookup_all_frames_then_globals 0 [] [] [("x", numV 1)] none (some 7) [] [] [] "x"
    (numV 1) rfl rfl rfl

/-- C2: `Return` pops the top value `v` and the current frame; if that
frame had no return address the evaluation yields `v` as the final result
(the driver then halts with it), otherwise the program counter becomes
the stored return address and `v` is pushed onto the caller frame's
operand stack; and the program `[PushPrimitive(1), Return]` run from the
empty state yields `1`. -/
theorem c2_return_protocol :
    (∀ (pc : Nat) (g l : Vars) (v : Value) (vs : List Value) (rest : List StackFrame),
      Instruction.ret.eval ⟨pc, g, ⟨l, none, v :: vs⟩ :: rest⟩
        = some (.ok (some v) ⟨pc, g, rest⟩))
  ∧ (∀ (pc ra : Nat) (g l l2 : Vars) (v : Value) (vs stk2 : List Value)
      (ra2 : Option Nat) (rest : List StackFrame),
      Instruction.ret.eval ⟨pc, g, ⟨l, some ra, v :: vs⟩ :: ⟨l2, ra2, stk2⟩ :: rest⟩
        = some (.ok none ⟨ra, g, ⟨l2, ra2, v :: stk2⟩ :: rest⟩))
  ∧ Program.run 3 ⟨[.pushPrimitive (.num (f64ofNat 1)), .ret]⟩
      = some (.ok (numV 1)) :=
  ⟨fun _ _ _ _ _ _ => rfl, fun _ _ _ _ _ _ _ _ _ _ => rfl, rfl⟩

/-- C3: when the program counter of the state handed to the driver loop
equals the length of the instruction sequence the run returns Nil; when
it is out of range in any other way (that is, larger) the run fails with
`InvalidProgramCounter`; and the empty program run from the empty state
yields Nil. -/
theorem c3_pc_at_end_nil_otherwise_invalid :
    (∀ (fuel : Nat) (p : Program) (s : State), s.pc = p.instructions.length →
      p.run_with_state (fuel + 1) s = some (.ok Value.nil))
  ∧ (∀ (fuel : Nat) (p : Program) (s : State), p.instructions.length < s.pc →
      p.run_with_state (fuel + 1) s = some (.error .InvalidProgramCounter))
  ∧ Program.run 1 ⟨[]⟩ = some (.ok Value.nil) := by
  refine ⟨fun fuel p s h => ?_, fun fuel p s h => ?_, rfl⟩
  · have hget : p.instructions.get? s.pc = none := by
      rw [List.get?_eq_none]
      omega
    simp only [Program.run_with_state]
    rw [hget]
    simp [h]
  · have hget : p.instructions.get? s.pc = none := by
      rw [List.get?_eq_none]
      omega
    have hne : s.pc ≠ p.instructions.length := by omega
    simp only [Program.run_with_state]
    rw [hget]
    simp [hne]

/-- C3 witness: the two driver conclusions at concrete states of a
two-instruction program. -/
theorem c3_pc_at_end_nil_otherwise_invalid_witness :
    Program.run_with_state (0 + 1) ⟨[.nop, .nop]⟩ ⟨2, [], [⟨[], none, []⟩]⟩
        = some (.ok Value.nil)
      ∧ Program.run_with_state (0 + 1) ⟨[.nop, .nop]⟩ ⟨7, [], [⟨[], none, []⟩]⟩
        = some (.error .InvalidProgramCounter) :=
  ⟨c3_pc_at_end_nil_otherwise_invalid.1 0 ⟨[.nop, .nop]⟩ ⟨2, [], [⟨[], none, []⟩]⟩ rfl,
   c3_pc_at_end_nil_otherwise_invalid.2.1 0 ⟨[.nop, .nop]⟩ ⟨7, [], [⟨[], none, []⟩]⟩
     (by decide)⟩

/-- C4, counterexample: `TableGet` pops only the key and peeks at the
table, so the table stays on the operand stack below the looked-up value
— the post-stack suffix is `t, v`, not the single value `v` the claim
states. -/
theorem c4_counterexample_table_left_on_stack :
    Instruction.tableGet.eval c4State = some (.ok none c4StateAfter)
      ∧ stateTopStack c4StateAfter
          = [numV 1, .table [(.str "x", numV 1)]]
      ∧ (stateTopStack c4StateAfter).length = 2 :=
  ⟨rfl, rfl, rfl⟩

/-- C4 (amended): with a table `t` below a primitive key `k` on top of
the operand stack, `TableGet` succeeds and replaces the suffix `t, k` by
`t, v` — the table remains below the result — where `v` is `t`'s binding
for `k` or Nil if absent; if the value below the key is not a table, it
fails with `InvalidVariable` (with the key consumed). -/
theorem c4_tableget_leaves_table_below_result :
    (∀ (pc : Nat) (g l : Vars) (ra : Option Nat) (stk : List Value)
       (rest : List StackFrame) (t : Table) (k : Primitive),
      Instruction.tableGet.eval ⟨pc, g, ⟨l, ra, .prim k :: .table t :: stk⟩ :: rest⟩
        = some (.ok none
            ⟨pc + 1, g, ⟨l, ra, ((Table.get t k).getD Value.nil) :: .table t :: stk⟩ :: rest⟩))
  ∧ (∀ (pc : Nat) (g l : Vars) (ra : Option Nat) (stk : List Value)
       (rest : List StackFrame) (p : Primitive) (k : Primitive),
      Instruction.tableGet.eval ⟨pc, g, ⟨l, ra, .prim k :: .prim p :: stk⟩ :: rest⟩
        = some (.err .InvalidVariable ⟨pc + 1, g, ⟨l, ra, .prim p :: stk⟩ :: rest⟩))
  ∧ (∀ (pc : Nat) (g l : Vars) (ra : Option Nat) (stk : List Value)
       (rest : List StackFrame) (a : Nat) (k : Primitive),
      Instruction.tableGet.eval ⟨pc, g, ⟨l, ra, .prim k :: .fptr a :: stk⟩ :: rest⟩
        = some (.err .InvalidVariable ⟨pc + 1, g, ⟨l, ra, .fptr a :: stk⟩ :: rest⟩)) :=
  ⟨fun _ _ _ _ _ _ _ _ => rfl, fun _ _ _ _ _ _ _ _ => rfl, fun _ _ _ _ _ _ _ _ => rfl⟩

/-- C5: `StoreFunctionArgs` resolves each (named-key, positional-key)
parameter pair by first reading the named key of the popped arguments
table, falling back to the positional key when that binding is Nil or
absent, and failing with `FunctionArgumentNotProvided` when both are Nil
or absent; the resolved value is bound into the current frame's locals
and its source slot is cleared to Nil, so one supplied value never
satisfies two parameters (last conjunct); and the spec's example binds
`self=1, a=2, b=3, c=4`. -/
theorem c5_store_function_args_resolution :
    (∀ (pc : Nat) (g l : Vars) (ra : Option Nat) (stk : List Value)
       (rest : List StackFrame) (t : Table) (nm : String) (posv : Value) (w : Value),
      Table.get t (.str nm) = some w → w.is_nil = false →
      Instruction.eval (.storeFunctionArgs false 1)
          ⟨pc, g, ⟨l, ra, posv :: strV nm :: .table t :: stk⟩ :: rest⟩
        = some (.ok none ⟨pc + 1, g, ⟨varsInsert l nm w, ra, stk⟩ :: rest⟩))
  ∧ (∀ (pc : Nat) (g l : Vars) (ra : Option Nat) (stk : List Value)
       (rest : List StackFrame) (t : Table) (nm : String) (pb : Nat) (w : Value),
      (Table.get t (.str nm) = none ∨ Table.get t (.str nm) = some Value.nil) →
      Table.get t (.num pb) = some w → w.is_nil = false →
      Instruction.eval (.storeFunctionArgs false 1)
          ⟨pc, g, ⟨l, ra, .prim (.num pb) :: strV nm :: .table t :: stk⟩ :: rest⟩
        = some (.ok none ⟨pc + 1, g, ⟨varsInsert l nm w, ra, stk⟩ :: rest⟩))
  ∧ (∀ (pc : Nat) (g l : Vars) (ra : Option Nat) (stk : List Value)
       (rest : List StackFrame) (t : Table) (nm : String) (pb : Nat),
      (Table.get t (.str nm) = none ∨ Table.get t (.str nm) = some Value.nil) →
      (Table.get t (.num pb) = none ∨ Table.get t (.num pb) = some Value.nil) →
      Instruction.eval (.storeFunctionArgs false 1)
          ⟨pc, g, ⟨l, ra, .prim (.num pb) :: strV nm :: .table t :: stk⟩ :: rest⟩
        = some (.err .FunctionArgumentNotProvided ⟨pc + 1, g, ⟨l, ra, stk⟩ :: rest⟩))
  ∧ Instruction.eval (.storeFunctionArgs true 3) c5State = some (.ok none c5StateAfter)
  ∧ varsGet (stateTopLocals c5StateAfter) "self" = some (numV 1)
  ∧ varsGet (stateTopLocals c5StateAfter) "a" = some (numV 2)
  ∧ varsGet (stateTopLocals c5StateAfter) "b" = some (numV 3)
  ∧ varsGet (stateTopLocals c5StateAfter) "c" = some (numV 4)
  ∧ Instruction.eval (.storeFunctionArgs false 2) c5DoubleState
      = some (.err .FunctionArgumentNotProvided c5DoubleAfter) := by
  refine ⟨?_, ?_, ?_, rfl, rfl, rfl, rfl, rfl, rfl⟩
  · intro pc g l ra stk rest t nm posv w hw hnil
    simp [Instruction.eval, sfaPopPairs, sfaBind, strV, State.incr_pc, State.pop_stack,
      State.set_var, Value.get_string, Value.into_table, Table.get_mut, hw, hnil]
  · intro pc g l ra stk rest t nm pb w hnamed hpos hnil
    have hne : primEq (.str nm) (.num pb) = false := rfl
    rcases hnamed with hnamed | hnamed
    · simp [Instruction.eval, sfaPopPairs, sfaBind, State.incr_pc, State.pop_stack,
        State.set_var, Value.get_string, Value.get_f64, Value.into_table, Table.get_mut,
        strV, hnamed, tableGet_set_ne hne, hpos, hnil, is_nil_prim_nil, is_nil_value_nil]
    · simp [Instruction.eval, sfaPopPairs, sfaBind, State.incr_pc, State.pop_stack,
        State.set_var, Value.get_string, Value.get_f64, Value.into_table, Table.get_mut,
        strV, hnamed, hpos, hnil, is_nil_prim_nil, is_nil_value_nil]
  · intro pc g l ra stk rest t nm pb hnamed hpos
    have hne : primEq (.str nm) (.num pb) = false := rfl
    rcases hnamed with hnamed | hnamed <;> rcases hpos with hpos | hpos <;>
      simp [Instruction.eval, sfaPopPairs, sfaBind, State.incr_pc, State.pop_stack,
        State.set_var, Value.get_string, Value.get_f64, Value.into_table, Table.get_mut,
        strV, hnamed, hpos, tableGet_set_ne hne, is_nil_prim_nil, is_nil_value_nil]

/-- C5 witness: the three resolution conclusions at concrete inputs
(named hit; positional fallback; both absent). -/
theorem c5_store_function_args_resolution_witness :
    Instruction.eval (.storeFunctionArgs false 1)
        ⟨0, [], ⟨[], none, numV 0 :: strV "a" :: .table [(.str "a", numV 9)] :: []⟩ :: []⟩
      = some (.ok none ⟨0 + 1, [], ⟨varsInsert [] "a" (numV 9), none, []⟩ :: []⟩)
  ∧ Instruction.eval (.storeFunctionArgs false 1)
        ⟨0, [], ⟨[], none,
          .prim (.num (f64ofNat 0)) :: strV "a" :: .table [(.num (f64ofNat 0), numV 9)] :: []⟩ :: []⟩
      = some (.ok none ⟨0 + 1, [], ⟨varsInsert [] "a" (numV 9), none, []⟩ :: []⟩)
  ∧ Instruction.eval (.storeFunctionArgs false 1)
        ⟨0, [], ⟨[], none, .prim (.num (f64ofNat 0)) :: strV "a" :: .table [] :: []⟩ :: []⟩
      = some (.err .FunctionArgumentNotProvided ⟨0 + 1, [], ⟨[], none, []⟩ :: []⟩) :=
  ⟨c5_store_function_args_resolution.1 0 [] [] none [] [] [(.str "a", numV 9)] "a"
      (numV 0) (numV 9) rfl rfl,
   c5_store_function_args_resolution.2.1 0 [] [] none [] [] [(.num (f64ofNat 0), numV 9)]
      "a" (f64ofNat 0) (numV 9) (Or.inl rfl) rfl rfl,
   c5_store_function_args_resolution.2.2.1 0 [] [] none [] [] [] "a" (f64ofNat 0)
      (Or.inl rfl) (Or.inl rfl)⟩

/-- C6, counterexample: evaluating `Pop` on an empty operand stack fails
with `EmptyStack` but has already incremented the program counter, so the
state after the failed evaluation differs from the state before it. -/
theorem c6_counterexample_failed_pop_mutates_pc :
    Instruction.pop.eval c6State = some (.err .EmptyStack c6StateAfter)
      ∧ c6StateAfter.pc ≠ c6State.pc :=
  ⟨rfl, by decide⟩

/-- C6 (amended): when evaluating an instruction returns an error the
globals are unchanged, but the rest of the state need not be: the program
counter may already have been incremented and operands popped (and
`StoreFunctionArgs` may have bound earlier parameters) before the
failure. -/
theorem c6_error_preserves_globals_only
    (i : Instruction) (s : State) (e : RuntimeError) (s2 : State)
    (h : Instruction.eval i s = some (.err e s2)) : s2.globals = s.globals := by
  have hg := eval_globals i s (.err e s2) h
  simpa [resState] using hg

/-- C6 witness: the failed `Pop` of the counterexample preserves the
globals. -/
theorem c6_error_preserves_globals_only_witness :
    c6StateAfter.globals = c6State.globals :=
  c6_error_preserves_globals_only .pop c6State .EmptyStack c6StateAfter rfl

/-- C7, counterexample: a key that `b` binds to Nil is skipped by the
merge iteration, so `a`'s binding survives — the merged table's binding
for `k` is `a`'s `1`, not `b`'s Nil as the claim (which includes
Nil-bound keys of `b`) states. -/
theorem c7_counterexample_nil_binding_does_not_win :
    Instruction.tableMerge.eval ⟨0, [], [⟨[], none, [.table c7b, .table c7a]⟩]⟩
        = some (.ok none ⟨1, [], [⟨[], none, [.table c7a]⟩]⟩)
      ∧ Table.get c7b (.str "k") = some Value.nil
      ∧ Table.get (mergeTables c7a c7b) (.str "k") = some (numV 1)
      ∧ (numV 1).is_nil = false :=
  ⟨rfl, rfl, rfl, rfl⟩

/-- C7 (amended): `TableMerge` pushes `mergeTables a b`; for every key
that `b` binds to a non-Nil value the merged binding equals `b`'s value,
and for every other key — absent from `b` or bound to Nil in `b`, Nil
bindings being skipped by table iteration — it equals `a`'s binding; the
spec's example `merge({a:1,b:2}, {b:3,c:4}) = {a:1,b:3,c:4}` holds. -/
theorem c7_merge_right_biased_on_non_nil :
    (∀ (pc : Nat) (g l : Vars) (ra : Option Nat) (stk : List Value)
       (rest : List StackFrame) (a b : Table),
      Instruction.tableMerge.eval ⟨pc, g, ⟨l, ra, .table b :: .table a :: stk⟩ :: rest⟩
        = some (.ok none ⟨pc + 1, g, ⟨l, ra, .table (mergeTables a b) :: stk⟩ :: rest⟩))
  ∧ (∀ (a b : Table) (k : Primitive) (w : Value), tableWF b →
      Table.get b k = some w → w.is_nil = false →
      Table.get (mergeTables a b) k = some w)
  ∧ (∀ (a b : Table) (k : Primitive), tableWF b →
      Table.get b k = none → Table.get (mergeTables a b) k = Table.get a k)
  ∧ (∀ (a b : Table) (k : Primitive) (w : Value), tableWF b →
      Table.get b k = some w → w.is_nil = true →
      Table.get (mergeTables a b) k = Table.get a k)
  ∧ Table.get (mergeTables c7ma c7mb) (.str "a") = some (numV 1)
  ∧ Table.get (mergeTables c7ma c7mb) (.str "b") = some (numV 3)
  ∧ Table.get (mergeTables c7ma c7mb) (.str "c") = some (numV 4) := by
  refine ⟨fun _ _ _ _ _ _ _ _ => rfl, ?_, ?_, ?_, rfl, rfl, rfl⟩
  · intro a b k w hb hw hnil
    rw [mergeTables_get hb, hw]
    simp [hnil]
  · intro a b k hb hnone
    rw [mergeTables_get hb, hnone]
  · intro a b k w hb hw hnil
    rw [mergeTables_get hb, hw]
    simp [hnil]

/-- C7 witness: the three per-key conclusions at concrete tables. -/
theorem c7_merge_right_biased_on_non_nil_witness :
    Table.get (mergeTables [(.str "x", numV 1)] [(.str "y", numV 2)]) (.str "y")
        = some (numV 2)
      ∧ Table.get (mergeTables [(.str "x", numV 1)] [(.str "y", numV 2)]) (.str "x")
        = Table.get [(.str "x", numV 1)] (.str "x")
      ∧ Table.get (mergeTables [(.str "x", numV 1)] [(.str "x", Value.nil)]) (.str "x")
        = Table.get [(.str "x", numV 1)] (.str "x") :=
  ⟨c7_merge_right_biased_on_non_nil.2.1 [(.str "x", numV 1)] [(.str "y", numV 2)]
      (.str "y") (numV 2) (by simp [tableWF]) rfl rfl,
   c7_merge_right_biased_on_non_nil.2.2.1 [(.str "x", numV 1)] [(.str "y", numV 2)]
      (.str "x") (by simp [tableWF]) rfl,
   c7_merge_right_biased_on_non_nil.2.2.2.1 [(.str "x", numV 1)] [(.str "x", Value.nil)]
      (.str "x") Value.nil (by simp [tableWF]) rfl rfl⟩

/-- C8: the jump instructions are not implemented — `Instruction::eval`
has no arm for `Jump`, `PopJumpIfTrue` or `PopJumpIfFalse`, so all three
reach the catch-all `todo!()` and panic (modelled as `none`) instead of
advancing the program counter as the claim (and the enumeration's own
doc comments) state. -/
theorem c8_jump_instructions_panic :
    Instruction.eval (.jump 0) c8State = none
  ∧ Instruction.eval (.jump 1) c8State = none
  ∧ Instruction.eval (.popJumpIfTrue 2) c8CondState = none
  ∧ Instruction.eval (.popJumpIfFalse 2) c8CondState = none :=
  ⟨rfl, rfl, rfl, rfl⟩

/-- C9: `0.0` and `-0.0` compare equal as `Number`s (IEEE equality, and
`cmp` returns `Equal`), yet they feed different words to the hasher
(`to_bits` differs in the sign bit), contradicting the claim that any two
Numbers that compare equal hash identically; the NaN conjuncts of the
claim do hold (NaN equals NaN, is below negative infinity, and any two
NaN payloads hash identically). -/
theorem c9_equal_zeros_hash_differently :
    numberEq 0 negZeroBits = true
  ∧ numberCmp 0 negZeroBits = .eq
  ∧ numberHashFeed 0 ≠ numberHashFeed negZeroBits
  ∧ numberEq nanExBits nanExBits = true
  ∧ numberCmp nanExBits nanExBits = .eq
  ∧ numberCmp nanExBits negInfBits = .lt
  ∧ numberHashFeed nanExBits = numberHashFeed (nanExBits + 1) := by
  refine ⟨by decide, by decide, by decide, by decide, by decide, by decide, by decide⟩

/-- C10: table equality as implemented checks only the left table's
non-Nil bindings against the right table, so it is not symmetric: the
empty table equals `{a: 1}` but `{a: 1}` does not equal the empty table,
contradicting the claim's two-sided characterization and its symmetry
consequence. -/
theorem c10_table_eq_asymmetric :
    tableEq [] c10t = true ∧ tableEq c10t [] = false := by
  constructor
  · simp [tableEq]
  · simp [tableEq, c10t, Table.get, numV, Value.is_nil]

end Mx
